import Mathlib

/-!
Verification of the connectivity-probing core (`src/server/connectivity.py`).

The development shallowly embeds the code:

* `NatHelper` (the packet correlator) becomes an explicit state
  (`NatState`): the Python dict `self.nat_packets` is an association list
  from message text to a future id, and the pool of `asyncio.Future`
  objects is a list indexed by future id, each slot holding `none` while
  pending and `some (address, message)` once resolved.
* The coroutines of `ConnectivityTest` become total functions over an
  explicit environment describing which inbound packets the correlator
  would deliver during each expectation window, with rational arrival
  times measured from the start of the window.
* Exceptions (`TimeoutError`, `CancelledError`) caught inside a phase are
  modelled as the phase returning its failure value; a cancellation that
  reaches `determine_connectivity` through an unguarded suspension point
  is modelled by the `cancelled` flag of the run environment and lands in
  the `except` clause of `determine_connectivity`.
-/

/-- `server.types.Address`: a (host, port) pair. -/
structure Address where
  host : String
  port : Nat
deriving DecidableEq, Repr

/-- A slot for one `asyncio.Future` created by `wait_for_natpacket`:
`none` while pending, `some (address, message)` once `set_result` ran. -/
abbrev FutVal := Option (Address × String)

/-- State of a `NatHelper` instance: the future pool plus the
`self.nat_packets` dict, an association from message text to the index of
the future awaiting that text. -/
structure NatState where
  futures : List FutVal
  nat_packets : List (String × Nat)
deriving DecidableEq, Repr

/-- `NatHelper.__init__`: `self.nat_packets = {}` and no futures exist. -/
def NatState.init : NatState := ⟨[], []⟩

/-- Python dict lookup `d[k]` / membership `k in d` on the association
list: the most recent binding for the key. -/
def dictFind (t : List (String × Nat)) (k : String) : Option Nat :=
  (t.find? (fun e => e.1 == k)).map (·.2)

/-- Python dict assignment `d[k] = v`: the new binding shadows (replaces)
any previous binding of `k`. -/
def dictInsert (t : List (String × Nat)) (k : String) (v : Nat) :
    List (String × Nat) :=
  (k, v) :: t.filter (fun e => e.1 != k)

/-- Python `del d[k]`: remove the binding of `k`. -/
def dictErase (t : List (String × Nat)) (k : String) : List (String × Nat) :=
  t.filter (fun e => e.1 != k)

/-- Registration step of `NatHelper.wait_for_natpacket` (connectivity.py
lines 48-50): `fut = asyncio.Future(); self.nat_packets[message] = fut`.
A fresh pending future is allocated and stored under `message`,
replacing any pending future previously registered for that text.
Returns the updated state and the new future's id. -/
def wait_for_natpacket_register (s : NatState) (message : String) :
    NatState × Nat :=
  let fid := s.futures.length
  (⟨s.futures ++ [none], dictInsert s.nat_packets message fid⟩, fid)

/-- `NatHelper.process_nat_packet` (connectivity.py lines 60-65): if the
message text is a key of `nat_packets` and the stored future is not yet
done, resolve it with `(address, message)` and delete the table entry;
otherwise do nothing. -/
def process_nat_packet (s : NatState) (address : Address) (message : String) :
    NatState :=
  match dictFind s.nat_packets message with
  | none => s
  | some fid =>
    match s.futures[fid]? with
    | some none =>
        ⟨s.futures.set fid (some (address, message)),
         dictErase s.nat_packets message⟩
    | _ => s

/-- Post-await filter of `NatHelper.wait_for_natpacket` (lines 52-58):
after `addr, msg = await fut` the coroutine returns `(addr, msg)` only
when `(addr == sender or sender is None) and msg == message`; otherwise
it falls through and returns `None` (absent). `res` is the pair the
future was resolved with. -/
def wait_for_natpacket_result (message : String) (sender : Option Address)
    (res : Address × String) : Option (Address × String) :=
  if (some res.1 = sender ∨ sender = none) ∧ res.2 = message then some res
  else none

/-- The character `Char.ofNat 123`, the opening curly brace of a Python
format placeholder. -/
def lbrace : Char := Char.ofNat 123

/-- The character `Char.ofNat 125`, the closing curly brace of a Python
format placeholder. -/
def rbrace : Char := Char.ofNat 125

/-- Python `str.format` on the character list of the template: each
placeholder pair of braces is replaced by the next positional argument. -/
def pyformat : List String → List Char → List Char
  | _, [] => []
  | _, [c] => [c]
  | args, c1 :: c2 :: rest =>
    if c1 = lbrace ∧ c2 = rbrace then
      match args with
      | a :: rest2 => a.data ++ pyformat rest2 rest
      | [] => c1 :: c2 :: pyformat [] rest
    else c1 :: pyformat args (c2 :: rest)

/-- Python `template.format(*args)` on strings. -/
def pyformat_str (template : String) (args : List String) : String :=
  ⟨pyformat args template.data⟩

/-- One externally visible operation on a `NatHelper`: a registration by
`wait_for_natpacket` or an inbound packet fed to `process_nat_packet`. -/
inductive NatOp where
  | reg (message : String)
  | proc (address : Address) (message : String)
deriving DecidableEq, Repr

/-- Apply one operation to the correlator state. -/
def applyOp (s : NatState) : NatOp → NatState
  | .reg m => (wait_for_natpacket_register s m).1
  | .proc a m => process_nat_packet s a m

/-- Apply a sequence of operations, oldest first. -/
def applyOps (s : NatState) (ops : List NatOp) : NatState :=
  ops.foldl applyOp s

/-- An inbound packet as delivered to a correlator while one expectation
window is open: source address, text, and arrival time in time units
measured from the opening of the window.  The list order of a window's
packets is their arrival order. -/
structure Packet where
  src : Address
  text : String
  time : ℚ
deriving DecidableEq, Repr

/-- The packet that resolves an expectation registered for `message`:
the correlator matches on exact text, so it is the first packet of the
window whose text equals `message` (`process_nat_packet` resolves and
removes the entry, so later matching packets are ignored). -/
def firstMatch (message : String) (packets : List Packet) : Option Packet :=
  packets.find? (fun p => p.text == message)

/-- The PUBLIC probe text, `"Are you public? {}".format(self.identifier)`
(connectivity.py line 125). -/
def public_message (identifier : String) : String :=
  pyformat_str "Are you public? \x7b\x7d" [identifier]

/-- The STUN hello text, `"Hello {}".format(self.identifier)`
(connectivity.py line 138). -/
def hello_message (identifier : String) : String :=
  pyformat_str "Hello \x7b\x7d" [identifier]

/-- `"{}:{}".format(*self.remote_addr)` (connectivity.py line 113): the
peer's dialed address stringified. -/
def format_addr (a : Address) : String :=
  pyformat_str "\x7b\x7d:\x7b\x7d" [a.host, toString a.port]

/-- `ConnectivityTest.test_public` (connectivity.py lines 123-134):
register an expectation for the probe text, send the probe to the peer's
address 3 times (`for i in range(0, 3)`), then wait up to 1 time unit.
Returns whether the wait resolved, paired with the trace of sends.
`packets` are the packets delivered while the expectation is registered,
timed from the start of the phase; a `TimeoutError`/`CancelledError` of
the guarded wait is the `false` outcome. -/
def test_public (identifier : String) (remote_addr : Address)
    (packets : List Packet) : Bool × List (Address × String) :=
  let message := public_message identifier
  let sends := (List.range 3).map (fun _ => (remote_addr, message))
  match firstMatch message packets with
  | some p => (decide (p.time < 1), sends)
  | none => (false, sends)

/-- Modelled from the spec: `NatPacketServer.await_packet` (the class
lives outside src/).  Per spec section 4.1 the correlator resolves an
expectation exactly once, with the first inbound packet whose text equals
the registered message; `test_stun` then sleeps 0.1 units and waits 0.5
units, so the resolution reaches it only when the packet arrives within
0.1 + 0.5 = 0.6 units of registration.  The future's value is the
`(received, addr)` pair that `test_stun` unpacks. -/
def await_packet_resolution (message : String) (packets : List Packet) :
    Option (String × Address) :=
  match firstMatch message packets with
  | some p => if p.time < 6/10 then some (p.text, p.src) else none
  | none => none

/-- The round loop of `ConnectivityTest.test_stun` (connectivity.py lines
139-150): starting at round `i` with `fuel` rounds left, each round
registers an expectation, asks the relay to make the peer emit the hello
text, and waits; a resolution whose text equals the message returns the
observed source address, anything else falls through to the next round.
Also counts the rounds that actually ran.  `env i` is the packet window
of round `i`. -/
def test_stun_rounds (message : String) (env : Nat → List Packet) :
    Nat → Nat → Option Address × Nat
  | _, 0 => (none, 0)
  | i, fuel + 1 =>
    match await_packet_resolution message (env i) with
    | some (received, addr) =>
      if received == message then (some addr, 1)
      else
        let r := test_stun_rounds message env (i + 1) fuel
        (r.1, r.2 + 1)
    | none =>
      let r := test_stun_rounds message env (i + 1) fuel
      (r.1, r.2 + 1)

/-- `ConnectivityTest.test_stun` (connectivity.py lines 136-150): up to 3
rounds (`for i in range(0, 3)`); falling off the loop returns `None`. -/
def test_stun (identifier : String) (env : Nat → List Packet) :
    Option Address :=
  (test_stun_rounds (hello_message identifier) env 0 3).1

/-- The three connectivity levels (`ConnectivityState`). -/
inductive ConnState where
  | PUBLIC
  | STUN
  | PROXY
deriving DecidableEq, Repr

/-- The `addr` field of the `Connectivity` namedtuple is heterogeneous in
the Python code: a stringified address for PUBLIC, the raw source address
tuple for STUN. -/
inductive AddrVal where
  | str (s : String)
  | ip (a : Address)
deriving DecidableEq, Repr

/-- The `Connectivity` namedtuple `(addr, state)`. -/
structure Connectivity where
  addr : Option AddrVal
  state : ConnState
deriving DecidableEq, Repr

/-- Environment of one classification run: the packets delivered during
the PUBLIC expectation window, the packets of each STUN round's window,
and whether the run is cancelled at an unguarded suspension point (so
that the `CancelledError` reaches `determine_connectivity` itself rather
than being swallowed inside a phase's own `except`). -/
structure RunEnv where
  publicPackets : List Packet
  stunPackets : Nat → List Packet
  cancelled : Bool

/-- `ConnectivityTest.determine_connectivity` (connectivity.py lines
104-121): PUBLIC if `test_public` succeeds (addr is the dialed address
stringified), else STUN with the observed source if `test_stun` returns
one, else PROXY with no address; a `TimeoutError` or `CancelledError`
reaching the `try` body is caught and also yields `(None, PROXY)`. -/
def determine_connectivity (identifier : String) (remote_addr : Address)
    (env : RunEnv) : Connectivity :=
  if env.cancelled then ⟨none, .PROXY⟩
  else if (test_public identifier remote_addr env.publicPackets).1 then
    ⟨some (.str (format_addr remote_addr)), .PUBLIC⟩
  else
    match test_stun identifier env.stunPackets with
    | some a => ⟨some (.ip a), .STUN⟩
    | none => ⟨none, .PROXY⟩

/-- Invariant of the correlator state: every future stored in the
`nat_packets` table is still pending, and two table entries holding the
same future id carry the same message key. -/
def TableInv (s : NatState) : Prop :=
  (∀ e ∈ s.nat_packets, s.futures[e.2]? = some none) ∧
  (∀ e1 ∈ s.nat_packets, ∀ e2 ∈ s.nat_packets, e1.2 = e2.2 → e1.1 = e2.1)

/-- A future id that is pending and no longer reachable from the table:
such a future can never again be resolved. -/
def Unreachable (s : NatState) (fid : Nat) : Prop :=
  s.futures[fid]? = some none ∧ ∀ e ∈ s.nat_packets, e.2 ≠ fid

theorem dictFind_erase_self (t : List (String × Nat)) (k : String) :
    dictFind (dictErase t k) k = none := by
  unfold dictFind dictErase
  rw [Option.map_eq_none', List.find?_eq_none]
  intro e he
  have := (List.mem_filter.mp he).2
  simpa using this

theorem dictFind_insert_self (t : List (String × Nat)) (k : String) (v : Nat) :
    dictFind (dictInsert t k v) k = some v := by
  unfold dictFind dictInsert
  rw [List.find?_cons_of_pos]
  · rfl
  · simp

theorem dictFind_mem {t : List (String × Nat)} {k : String} {v : Nat}
    (h : dictFind t k = some v) : (k, v) ∈ t := by
  unfold dictFind at h
  rw [Option.map_eq_some'] at h
  obtain ⟨e, he, hev⟩ := h
  have hmem := List.mem_of_find?_eq_some he
  have hkey : e.1 = k := by simpa using List.find?_some he
  have : e = (k, v) := by
    cases e
    simp_all
  rwa [this] at hmem

theorem getElem?_lt {l : List FutVal} {i : Nat} {v : FutVal}
    (h : l[i]? = some v) : i < l.length := by
  rw [List.getElem?_eq_some] at h
  exact h.1

/-- Claim C6: when two inbound packets with the same matching text are
processed back-to-back against a pending expectation, the first
`process_nat_packet` call resolves the pending future with its
(address, message) pair and removes the entry from the table, and the
second call is a no-op: it leaves the state exactly as the first call
left it. -/
theorem C6_second_packet_is_noop (s : NatState) (a a2 : Address) (m : String)
    (fid : Nat) (hl : dictFind s.nat_packets m = some fid)
    (hp : s.futures[fid]? = some none) :
    (process_nat_packet s a m).futures[fid]? = some (some (a, m)) ∧
    dictFind (process_nat_packet s a m).nat_packets m = none ∧
    process_nat_packet (process_nat_packet s a m) a2 m =
      process_nat_packet s a m := by
  have hlt : fid < s.futures.length := getElem?_lt hp
  have hstep : process_nat_packet s a m =
      ⟨s.futures.set fid (some (a, m)), dictErase s.nat_packets m⟩ := by
    simp [process_nat_packet, hl, hp]
  refine ⟨?_, ?_, ?_⟩
  · rw [hstep]
    exact List.getElem?_set_eq_of_lt _ hlt
  · rw [hstep]
    exact dictFind_erase_self _ _
  · rw [hstep]
    simp [process_nat_packet, dictFind_erase_self]

/-- Witness for C6 at a concrete state: one pending future awaiting
message "m"; the packet from host "a" resolves it, a duplicate from host
"b" changes nothing. -/
theorem C6_witness :
    (process_nat_packet ⟨[none], [("m", 0)]⟩ ⟨"a", 1⟩ "m").futures[(0 : Nat)]? =
      some (some (⟨"a", 1⟩, "m")) ∧
    dictFind (process_nat_packet ⟨[none], [("m", 0)]⟩ ⟨"a", 1⟩ "m").nat_packets
      "m" = none ∧
    process_nat_packet (process_nat_packet ⟨[none], [("m", 0)]⟩ ⟨"a", 1⟩ "m")
      ⟨"b", 2⟩ "m" = process_nat_packet ⟨[none], [("m", 0)]⟩ ⟨"a", 1⟩ "m" :=
  C6_second_packet_is_noop ⟨[none], [("m", 0)]⟩ ⟨"a", 1⟩ ⟨"b", 2⟩ "m" 0
    (by decide) (by decide)

/-- Claim C8: when `wait_for_natpacket` was called with an explicit
sender constraint and the future resolves with a packet whose source
address differs from that sender, the coroutine returns an absent value
(`None`), not the (address, message) pair. -/
theorem C8_sender_mismatch_returns_absent (message : String) (sender : Address)
    (res : Address × String) (h : res.1 ≠ sender) :
    wait_for_natpacket_result message (some sender) res = none := by
  simp [wait_for_natpacket_result, h]

/-- Witness for C8: a packet from host "b" resolving a wait constrained
to sender host "a" yields `none` even though its text matches. -/
theorem C8_witness :
    wait_for_natpacket_result "hi" (some ⟨"a", 1⟩) (⟨"b", 2⟩, "hi") = none :=
  C8_sender_mismatch_returns_absent "hi" ⟨"a", 1⟩ (⟨"b", 2⟩, "hi") (by decide)

theorem process_eq_of_find_none (s : NatState) (m : String) (a : Address)
    (hl : dictFind s.nat_packets m = none) : process_nat_packet s a m = s := by
  simp [process_nat_packet, hl]

theorem process_eq_of_resolved (s : NatState) (m : String) (fid : Nat)
    (r : Address × String) (a : Address)
    (hl : dictFind s.nat_packets m = some fid)
    (hf : s.futures[fid]? = some (some r)) : process_nat_packet s a m = s := by
  simp [process_nat_packet, hl, hf]

theorem process_eq_of_oob (s : NatState) (m : String) (fid : Nat) (a : Address)
    (hl : dictFind s.nat_packets m = some fid)
    (hf : s.futures[fid]? = none) : process_nat_packet s a m = s := by
  simp [process_nat_packet, hl, hf]

theorem process_eq_of_pending (s : NatState) (m : String) (fid : Nat)
    (a : Address) (hl : dictFind s.nat_packets m = some fid)
    (hf : s.futures[fid]? = some none) :
    process_nat_packet s a m =
      ⟨s.futures.set fid (some (a, m)), dictErase s.nat_packets m⟩ := by
  simp [process_nat_packet, hl, hf]

theorem TableInv_init : TableInv NatState.init := by
  constructor
  · intro e he
    simp [NatState.init] at he
  · intro e1 h1
    simp [NatState.init] at h1

theorem TableInv_register {s : NatState} (m : String) (h : TableInv s) :
    TableInv (wait_for_natpacket_register s m).1 := by
  obtain ⟨hpend, hkey⟩ := h
  constructor
  · intro e he
    simp only [wait_for_natpacket_register, dictInsert, List.mem_cons] at he ⊢
    rcases he with rfl | he
    · exact List.getElem?_concat_length _ _
    · have hmem := (List.mem_filter.mp he).1
      have hp := hpend e hmem
      rw [List.getElem?_append_left (getElem?_lt hp)]
      exact hp
  · intro e1 h1 e2 h2 hfid
    simp only [wait_for_natpacket_register, dictInsert, List.mem_cons] at h1 h2
    rcases h1 with rfl | h1 <;> rcases h2 with rfl | h2
    · rfl
    · have hp := hpend e2 (List.mem_filter.mp h2).1
      have := getElem?_lt hp
      omega
    · have hp := hpend e1 (List.mem_filter.mp h1).1
      have := getElem?_lt hp
      omega
    · exact hkey e1 (List.mem_filter.mp h1).1 e2 (List.mem_filter.mp h2).1 hfid

theorem TableInv_process {s : NatState} (a : Address) (m : String)
    (h : TableInv s) : TableInv (process_nat_packet s a m) := by
  obtain ⟨hpend, hkey⟩ := h
  cases hl : dictFind s.nat_packets m with
  | none => rw [process_eq_of_find_none _ _ a hl]; exact ⟨hpend, hkey⟩
  | some fid =>
    cases hf : s.futures[fid]? with
    | none => rw [process_eq_of_oob _ _ _ a hl hf]; exact ⟨hpend, hkey⟩
    | some v =>
      cases v with
      | some r => rw [process_eq_of_resolved _ _ _ _ a hl hf]; exact ⟨hpend, hkey⟩
      | none =>
        rw [process_eq_of_pending _ _ _ a hl hf]
        constructor
        · intro e he
          obtain ⟨hmem, hne⟩ := List.mem_filter.mp he
          have hp := hpend e hmem
          have hfidne : fid ≠ e.2 := by
            intro he2
            have : e.1 = m := hkey e hmem (m, fid) (dictFind_mem hl) he2.symm
            simp [this] at hne
          rw [List.getElem?_set_ne hfidne]
          exact hp
        · intro e1 h1 e2 h2 hfid
          exact hkey e1 (List.mem_filter.mp h1).1 e2 (List.mem_filter.mp h2).1
            hfid

theorem TableInv_applyOp {s : NatState} (op : NatOp) (h : TableInv s) :
    TableInv (applyOp s op) := by
  cases op with
  | reg m => exact TableInv_register m h
  | proc a m => exact TableInv_process a m h

theorem TableInv_applyOps {s : NatState} (ops : List NatOp) (h : TableInv s) :
    TableInv (applyOps s ops) := by
  induction ops generalizing s with
  | nil => exact h
  | cons op ops ih => exact ih (TableInv_applyOp op h)

theorem Unreachable_applyOp {s : NatState} {fid : Nat} (op : NatOp)
    (h : Unreachable s fid) : Unreachable (applyOp s op) fid := by
  obtain ⟨hp, hnm⟩ := h
  cases op with
  | reg m =>
    have hlt := getElem?_lt hp
    constructor
    · simp only [applyOp, wait_for_natpacket_register]
      rw [List.getElem?_append_left hlt]
      exact hp
    · intro e he
      simp only [applyOp, wait_for_natpacket_register, dictInsert,
        List.mem_cons] at he
      rcases he with rfl | he
      · omega
      · exact hnm e (List.mem_filter.mp he).1
  | proc a m =>
    show Unreachable (process_nat_packet s a m) fid
    cases hl : dictFind s.nat_packets m with
    | none => rw [process_eq_of_find_none _ _ a hl]; exact ⟨hp, hnm⟩
    | some fid2 =>
      have hne : fid2 ≠ fid := hnm (m, fid2) (dictFind_mem hl)
      cases hf : s.futures[fid2]? with
      | none => rw [process_eq_of_oob _ _ _ a hl hf]; exact ⟨hp, hnm⟩
      | some v =>
        cases v with
        | some r => rw [process_eq_of_resolved _ _ _ _ a hl hf]; exact ⟨hp, hnm⟩
        | none =>
          rw [process_eq_of_pending _ _ _ a hl hf]
          constructor
          · rw [List.getElem?_set_ne hne]
            exact hp
          · intro e he
            exact hnm e (List.mem_filter.mp he).1

theorem Unreachable_applyOps {s : NatState} {fid : Nat} (ops : List NatOp)
    (h : Unreachable s fid) : Unreachable (applyOps s ops) fid := by
  induction ops generalizing s with
  | nil => exact h
  | cons op ops ih => exact ih (Unreachable_applyOp op h)

/-- Claim C10: after any sequence of `wait_for_natpacket` registrations
and `process_nat_packet` calls starting from a fresh `NatHelper`, every
future still stored in the `nat_packets` table is unresolved: a future
is deleted from the table in the same step that sets its result. -/
theorem C10_table_holds_only_pending (ops : List NatOp) :
    ∀ e ∈ (applyOps NatState.init ops).nat_packets,
      (applyOps NatState.init ops).futures[e.2]? = some none :=
  (TableInv_applyOps ops TableInv_init).1

/-- Witness for C10: after a single registration the table's one entry
points at a pending future. -/
theorem C10_witness :
    (applyOps NatState.init [NatOp.reg "h"]).futures[(0 : Nat)]? =
      some none :=
  C10_table_holds_only_pending [NatOp.reg "h"] ("h", 0) (by decide)

/-- Claim C7: registering a new expectation for a message key while one
is pending replaces the old one (last-registered wins): a matching
inbound packet then resolves only the newer future, while the superseded
future stays pending through the resolving packet and any further
sequence of registrations and inbound packets — the old waiter never
receives a resolution. -/
theorem C7_last_registered_wins (s : NatState) (m : String) (a : Address)
    (ops : List NatOp) (s1 s2 : NatState) (fid1 fid2 : Nat)
    (hwf : ∀ e ∈ s.nat_packets, e.2 < s.futures.length)
    (h1 : wait_for_natpacket_register s m = (s1, fid1))
    (h2 : wait_for_natpacket_register s1 m = (s2, fid2)) :
    fid1 ≠ fid2 ∧
    (process_nat_packet s2 a m).futures[fid2]? = some (some (a, m)) ∧
    (applyOps (process_nat_packet s2 a m) ops).futures[fid1]? = some none := by
  simp only [wait_for_natpacket_register, Prod.mk.injEq] at h1
  obtain ⟨hs1, hf1⟩ := h1
  subst hs1
  subst hf1
  simp only [wait_for_natpacket_register, Prod.mk.injEq, List.length_append,
    List.length_cons, List.length_nil] at h2
  obtain ⟨hs2, hf2⟩ := h2
  subst hs2
  subst hf2
  have hl : dictFind
      (dictInsert (dictInsert s.nat_packets m s.futures.length) m
        (s.futures.length + 1)) m = some (s.futures.length + 1) :=
    dictFind_insert_self _ _ _
  have hf : ((s.futures ++ [none]) ++ [(none : FutVal)])[s.futures.length + 1]? =
      some none := by
    have := List.getElem?_concat_length (s.futures ++ [none]) (none : FutVal)
    simpa using this
  have hstep := process_eq_of_pending
    ⟨(s.futures ++ [none]) ++ [none],
     dictInsert (dictInsert s.nat_packets m s.futures.length) m
       (s.futures.length + 1)⟩ m (s.futures.length + 1) a hl hf
  have hU : Unreachable (process_nat_packet
      ⟨(s.futures ++ [none]) ++ [none],
       dictInsert (dictInsert s.nat_packets m s.futures.length) m
         (s.futures.length + 1)⟩ a m) s.futures.length := by
    have hU2 : Unreachable
        ⟨(s.futures ++ [none]) ++ [none],
         dictInsert (dictInsert s.nat_packets m s.futures.length) m
           (s.futures.length + 1)⟩ s.futures.length := by
      constructor
      · show ((s.futures ++ [none]) ++ [(none : FutVal)])[s.futures.length]? =
          some none
        rw [List.getElem?_append_left (by simp)]
        exact List.getElem?_concat_length _ _
      · intro e he
        simp only [dictInsert, List.mem_cons] at he
        rcases he with rfl | he
        · omega
        · obtain ⟨he2, hpred⟩ := List.mem_filter.mp he
          rcases List.mem_cons.mp he2 with rfl | he3
          · simp at hpred
          · have := hwf e (List.mem_filter.mp he3).1
            omega
    exact Unreachable_applyOp (.proc a m) hU2
  refine ⟨by omega, ?_, ?_⟩
  · rw [hstep]
    exact List.getElem?_set_eq_of_lt _ (by simp)
  · exact (Unreachable_applyOps ops hU).1

/-- Witness for C7 from the fresh state: two registrations for "x" give
future ids 0 and 1; the matching packet resolves future 1 while future 0
stays pending. -/
theorem C7_witness :
    (0 : Nat) ≠ 1 ∧
    (process_nat_packet ⟨[none, none], [("x", 1)]⟩ ⟨"a", 1⟩
      "x").futures[(1 : Nat)]? = some (some (⟨"a", 1⟩, "x")) ∧
    (applyOps (process_nat_packet ⟨[none, none], [("x", 1)]⟩ ⟨"a", 1⟩ "x")
      []).futures[(0 : Nat)]? = some none :=
  C7_last_registered_wins NatState.init "x" ⟨"a", 1⟩ []
    ⟨[none], [("x", 0)]⟩ ⟨[none, none], [("x", 1)]⟩ 0 1
    (by decide) (by decide) (by decide)

theorem firstMatch_mem {message : String} {l : List Packet} {q : Packet}
    (hfm : firstMatch message l = some q) : q ∈ l ∧ q.text = message := by
  refine ⟨List.mem_of_find?_eq_some hfm, ?_⟩
  have := List.find?_some hfm
  simpa using this

theorem firstMatch_le_of_mem {message : String} {l : List Packet}
    (hord : l.Pairwise (fun x y => x.time ≤ y.time)) {p : Packet}
    (hp : p ∈ l) (ht : p.text = message) :
    ∃ q, firstMatch message l = some q ∧ q.time ≤ p.time := by
  induction l with
  | nil => cases hp
  | cons x t ih =>
    by_cases hx : x.text = message
    · refine ⟨x, ?_, ?_⟩
      · unfold firstMatch
        rw [List.find?_cons_of_pos]
        simp [hx]
      · rcases List.mem_cons.mp hp with rfl | hp2
        · exact le_refl _
        · exact (List.pairwise_cons.mp hord).1 p hp2
    · rcases List.mem_cons.mp hp with rfl | hp2
      · exact absurd ht hx
      · obtain ⟨q, hq, hqt⟩ := ih (List.pairwise_cons.mp hord).2 hp2
        refine ⟨q, ?_, hqt⟩
        unfold firstMatch at hq ⊢
        rwa [List.find?_cons_of_neg]
        simp [hx]

theorem firstMatch_none {message : String} {l : List Packet}
    (h : ∀ p ∈ l, p.text ≠ message) : firstMatch message l = none := by
  unfold firstMatch
  rw [List.find?_eq_none]
  intro p hp
  simpa using h p hp

theorem public_message_eq (identifier : String) :
    public_message identifier = "Are you public? " ++ identifier := by
  have h : "Are you public? " ++ identifier =
      ⟨"Are you public? ".data ++ identifier.data⟩ := rfl
  rw [h]
  simp [public_message, pyformat_str, pyformat, lbrace, rbrace]

theorem hello_message_eq (identifier : String) :
    hello_message identifier = "Hello " ++ identifier := by
  have h : "Hello " ++ identifier = ⟨"Hello ".data ++ identifier.data⟩ := rfl
  rw [h]
  simp [hello_message, pyformat_str, pyformat, lbrace, rbrace]

theorem format_addr_eq (a : Address) :
    format_addr a = a.host ++ ":" ++ toString a.port := by
  have h : a.host ++ ":" ++ toString a.port =
      ⟨a.host.data ++ ":".data ++ (toString a.port).data⟩ := rfl
  rw [h]
  simp [format_addr, pyformat_str, pyformat, lbrace, rbrace]

/-- Claim C1: for every peer address and identifier the classifier
returns a `Connectivity` whose state is one of PUBLIC, STUN, PROXY — a
timeout or cancellation inside a phase only steers the fallthrough, it
never escapes as a failure — and a cancellation of the overall run
(reaching the `except` of `determine_connectivity`) yields the result
`(addr=None, state=PROXY)`. -/
theorem C1_always_returns_a_level (identifier : String)
    (remote_addr : Address) (env : RunEnv) :
    ((determine_connectivity identifier remote_addr env).state = .PUBLIC ∨
     (determine_connectivity identifier remote_addr env).state = .STUN ∨
     (determine_connectivity identifier remote_addr env).state = .PROXY) ∧
    (env.cancelled = true →
      determine_connectivity identifier remote_addr env = ⟨none, .PROXY⟩) := by
  constructor
  · cases h : (determine_connectivity identifier remote_addr env).state
    · exact Or.inl rfl
    · exact Or.inr (Or.inl rfl)
    · exact Or.inr (Or.inr rfl)
  · intro hc
    simp [determine_connectivity, hc]

/-- Witness for C1: a cancelled run returns `(None, PROXY)` even though a
matching echo was available. -/
theorem C1_witness :
    determine_connectivity "abc123" ⟨"10.0.0.5", 6112⟩
      ⟨[⟨⟨"10.0.0.5", 6112⟩, "Are you public? abc123", 1/5⟩], fun _ => [],
        true⟩ = ⟨none, .PROXY⟩ :=
  (C1_always_returns_a_level "abc123" ⟨"10.0.0.5", 6112⟩
    ⟨[⟨⟨"10.0.0.5", 6112⟩, "Are you public? abc123", 1/5⟩], fun _ => [],
      true⟩).2 rfl

/-- Claim C2: if a packet whose text exactly equals the PUBLIC probe
message arrives within 1 time unit of the (instantaneous) burst of three
sends, the run classifies PUBLIC and the address is the peer's dialed
address stringified as "host:port". -/
theorem C2_public_echo_yields_public (identifier : String)
    (remote_addr : Address) (env : RunEnv) (p : Packet)
    (hc : env.cancelled = false)
    (hord : env.publicPackets.Pairwise (fun x y => x.time ≤ y.time))
    (hp : p ∈ env.publicPackets)
    (ht : p.text = public_message identifier)
    (htime : p.time < 1) :
    determine_connectivity identifier remote_addr env =
      ⟨some (.str (format_addr remote_addr)), .PUBLIC⟩ ∧
    format_addr remote_addr =
      remote_addr.host ++ ":" ++ toString remote_addr.port := by
  obtain ⟨q, hq, hqt⟩ := firstMatch_le_of_mem hord hp ht
  have hpub : (test_public identifier remote_addr env.publicPackets).1 =
      true := by
    simp only [test_public, hq]
    simpa using lt_of_le_of_lt hqt htime
  exact ⟨by simp [determine_connectivity, hc, hpub],
    format_addr_eq remote_addr⟩

/-- Witness for C2: the spec's concrete scenario — identifier "abc123",
peer (10.0.0.5, 6112), matching echo at t = 0.2. -/
theorem C2_witness :
    determine_connectivity "abc123" ⟨"10.0.0.5", 6112⟩
      ⟨[⟨⟨"10.0.0.5", 6112⟩, "Are you public? abc123", 1/5⟩], fun _ => [],
        false⟩ =
      ⟨some (.str (format_addr ⟨"10.0.0.5", 6112⟩)), .PUBLIC⟩ ∧
    format_addr ⟨"10.0.0.5", 6112⟩ =
      "10.0.0.5" ++ ":" ++ toString 6112 :=
  C2_public_echo_yields_public "abc123" ⟨"10.0.0.5", 6112⟩
    ⟨[⟨⟨"10.0.0.5", 6112⟩, "Are you public? abc123", 1/5⟩], fun _ => [],
      false⟩
    ⟨⟨"10.0.0.5", 6112⟩, "Are you public? abc123", 1/5⟩
    rfl (by simp) (by simp) (by decide) (by norm_num)

theorem await_some_of_match {message : String} {l : List Packet}
    (hord : l.Pairwise (fun x y => x.time ≤ y.time)) {p : Packet}
    (hp : p ∈ l) (ht : p.text = message) (htime : p.time < 6/10) :
    ∃ q, q ∈ l ∧ q.text = message ∧ q.time < 6/10 ∧
      await_packet_resolution message l = some (q.text, q.src) := by
  obtain ⟨q, hq, hqt⟩ := firstMatch_le_of_mem hord hp ht
  obtain ⟨hmem, htext⟩ := firstMatch_mem hq
  have hlt : q.time < 6/10 := lt_of_le_of_lt hqt htime
  exact ⟨q, hmem, htext, hlt, by simp [await_packet_resolution, hq, hlt]⟩

theorem await_inv {message : String} {l : List Packet} {pr : String × Address}
    (hres : await_packet_resolution message l = some pr) :
    ∃ q, q ∈ l ∧ q.text = message ∧ q.time < 6/10 ∧ pr = (q.text, q.src) := by
  cases hfm : firstMatch message l with
  | none =>
    rw [await_packet_resolution, hfm] at hres
    cases hres
  | some q =>
    by_cases hlt : q.time < 6/10
    · obtain ⟨hmem, htext⟩ := firstMatch_mem hfm
      refine ⟨q, hmem, htext, hlt, ?_⟩
      rw [await_packet_resolution, hfm] at hres
      simp only [if_pos hlt, Option.some_inj] at hres
      exact hres.symm
    · exfalso
      rw [await_packet_resolution, hfm] at hres
      simp only [if_neg hlt] at hres
      cases hres

theorem await_none_of_no_match {message : String} {l : List Packet}
    (h : ∀ p ∈ l, p.text = message → ¬ p.time < 6/10) :
    await_packet_resolution message l = none := by
  cases hfm : firstMatch message l with
  | none => simp [await_packet_resolution, hfm]
  | some q =>
    obtain ⟨hmem, htext⟩ := firstMatch_mem hfm
    simp [await_packet_resolution, hfm, h q hmem htext]

theorem stun_rounds_sound (message : String) (env : Nat → List Packet)
    (hord : ∀ n, (env n).Pairwise (fun x y => x.time ≤ y.time)) :
    ∀ fuel i j, j < fuel →
    (∃ p ∈ env (i + j), p.text = message ∧ p.time < 6/10) →
    ∃ j2 q, j2 < fuel ∧ q ∈ env (i + j2) ∧ q.text = message ∧
      q.time < 6/10 ∧ (test_stun_rounds message env i fuel).1 = some q.src := by
  intro fuel
  induction fuel with
  | zero =>
    intro i j hj _
    exact absurd hj (Nat.not_lt_zero j)
  | succ fuel ih =>
    intro i j hj hp
    cases hres : await_packet_resolution message (env i) with
    | some pr =>
      obtain ⟨q, hqm, hqt, hqtime, rfl⟩ := await_inv hres
      refine ⟨0, q, Nat.succ_pos fuel, by simpa using hqm, hqt, hqtime, ?_⟩
      simp [test_stun_rounds, hres, hqt]
    | none =>
      obtain ⟨p, hpm, hpt, hptime⟩ := hp
      cases j with
      | zero =>
        exfalso
        obtain ⟨q, _, _, _, habs⟩ :=
          await_some_of_match (hord (i + 0)) hpm hpt hptime
        simp only [Nat.add_zero] at habs
        rw [hres] at habs
        cases habs
      | succ j2 =>
        obtain ⟨j3, q, hj3, hqm, hqt, hqtime, hres2⟩ :=
          ih (i + 1) j2 (by omega)
            ⟨p, by rw [show i + 1 + j2 = i + (j2 + 1) by omega]; exact hpm,
             hpt, hptime⟩
        refine ⟨j3 + 1, q, by omega, ?_, hqt, hqtime, ?_⟩
        · rw [show i + (j3 + 1) = i + 1 + j3 by omega]
          exact hqm
        · simpa [test_stun_rounds, hres] using hres2

theorem stun_rounds_none (message : String) (env : Nat → List Packet) :
    ∀ fuel i, (∀ j < fuel, await_packet_resolution message (env (i + j)) =
      none) → (test_stun_rounds message env i fuel).1 = none := by
  intro fuel
  induction fuel with
  | zero => intro i _; rfl
  | succ fuel ih =>
    intro i h
    have h0 : await_packet_resolution message (env i) = none := by
      have := h 0 (Nat.succ_pos fuel)
      simpa using this
    have hrest : (test_stun_rounds message env (i + 1) fuel).1 = none := by
      refine ih (i + 1) (fun j hj => ?_)
      have := h (j + 1) (by omega)
      rwa [show i + (j + 1) = i + 1 + j by omega] at this
    simpa [test_stun_rounds, h0] using hrest

/-- Claim C3: if the PUBLIC phase fails but, during one of the 3 STUN
rounds, a packet whose text exactly equals the hello message arrives
from any source before that round's deadline (0.1 settle + 0.5 wait
after registration), the run classifies STUN and the address is the
source address observed on the wire for the round that resolved — which
may differ from the dialed address. -/
theorem C3_stun_hello_yields_stun (identifier : String)
    (remote_addr : Address) (env : RunEnv) (k : Nat) (p : Packet)
    (hc : env.cancelled = false)
    (hpub : (test_public identifier remote_addr env.publicPackets).1 = false)
    (hord : ∀ n, (env.stunPackets n).Pairwise (fun x y => x.time ≤ y.time))
    (hk : k < 3) (hp : p ∈ env.stunPackets k)
    (ht : p.text = hello_message identifier) (htime : p.time < 6/10) :
    ∃ j q, j < 3 ∧ q ∈ env.stunPackets j ∧
      q.text = hello_message identifier ∧ q.time < 6/10 ∧
      determine_connectivity identifier remote_addr env =
        ⟨some (.ip q.src), .STUN⟩ := by
  obtain ⟨j, q, hj, hqm, hqt, hqtime, hres⟩ :=
    stun_rounds_sound (hello_message identifier) env.stunPackets hord 3 0 k hk
      ⟨p, by simpa using hp, ht, htime⟩
  refine ⟨j, q, hj, by simpa using hqm, hqt, hqtime, ?_⟩
  simp [determine_connectivity, hc, hpub, test_stun, hres]

/-- Witness for C3: the spec's concrete scenario — no PUBLIC echo, a
"Hello abc123" packet from (203.0.113.9, 51000) arriving in round
index 1 yields STUN at that observed source. -/
theorem C3_witness :
    ∃ j q, j < 3 ∧
      q ∈ (fun n => if n = 1 then
        [⟨⟨"203.0.113.9", 51000⟩, "Hello abc123", (1/5 : ℚ)⟩]
        else ([] : List Packet)) j ∧
      q.text = hello_message "abc123" ∧ q.time < 6/10 ∧
      determine_connectivity "abc123" ⟨"10.0.0.5", 6112⟩
        ⟨[], (fun n => if n = 1 then
          [⟨⟨"203.0.113.9", 51000⟩, "Hello abc123", (1/5 : ℚ)⟩]
          else ([] : List Packet)), false⟩ =
        ⟨some (.ip q.src), .STUN⟩ :=
  C3_stun_hello_yields_stun "abc123" ⟨"10.0.0.5", 6112⟩
    ⟨[], (fun n => if n = 1 then
      [⟨⟨"203.0.113.9", 51000⟩, "Hello abc123", (1/5 : ℚ)⟩]
      else ([] : List Packet)), false⟩ 1
    ⟨⟨"203.0.113.9", 51000⟩, "Hello abc123", (1/5 : ℚ)⟩
    rfl (by decide)
    (by intro n; by_cases h : n = 1 <;> simp [h])
    (by decide) (by simp) (by decide) (by norm_num)

/-- Claim C4: if no packet matching the probe text beats the PUBLIC
deadline and no packet matching the hello text beats any STUN round's
deadline, the run classifies PROXY with an absent address. -/
theorem C4_no_match_yields_proxy (identifier : String)
    (remote_addr : Address) (env : RunEnv)
    (hc : env.cancelled = false)
    (hpub : ∀ p ∈ env.publicPackets,
      p.text = public_message identifier → ¬ p.time < 1)
    (hstun : ∀ n, ∀ p ∈ env.stunPackets n,
      p.text = hello_message identifier → ¬ p.time < 6/10) :
    determine_connectivity identifier remote_addr env = ⟨none, .PROXY⟩ := by
  have hpubf : (test_public identifier remote_addr env.publicPackets).1 =
      false := by
    cases hfm : firstMatch (public_message identifier) env.publicPackets with
    | none => simp [test_public, hfm]
    | some q =>
      obtain ⟨hmem, htext⟩ := firstMatch_mem hfm
      simp [test_public, hfm, hpub q hmem htext]
  have hstunf : test_stun identifier env.stunPackets = none := by
    rw [test_stun]
    exact stun_rounds_none _ _ 3 0 (fun j hj =>
      await_none_of_no_match (fun p hp ht => hstun (0 + j) p hp ht))
  simp [determine_connectivity, hc, hpubf, hstunf]

/-- Witness for C4: the run with no inbound packets at all returns
`(None, PROXY)`. -/
theorem C4_witness :
    determine_connectivity "abc123" ⟨"10.0.0.5", 6112⟩
      ⟨[], fun _ => [], false⟩ = ⟨none, .PROXY⟩ :=
  C4_no_match_yields_proxy "abc123" ⟨"10.0.0.5", 6112⟩
    ⟨[], fun _ => [], false⟩ rfl (by simp) (by simp)

/-- Claim C5 is false on the code: at identifier "abc123" the probe
texts are not "public-probe:abc123" and "hello:abc123" — the code
builds "Are you public? {}" and "Hello {}" texts instead. -/
theorem C5_counterexample :
    public_message "abc123" ≠ "public-probe:" ++ "abc123" ∧
    hello_message "abc123" ≠ "hello:" ++ "abc123" := by
  decide

/-- Claim C5 (amended): the PUBLIC probe message is
"Are you public? " followed by the identifier and the STUN hello message
is "Hello " followed by the identifier — the format is
"<tag> <identifier>" with a space, not "<purpose-tag>:<identifier>". -/
theorem C5_message_formats (identifier : String) :
    public_message identifier = "Are you public? " ++ identifier ∧
    hello_message identifier = "Hello " ++ identifier :=
  ⟨public_message_eq identifier, hello_message_eq identifier⟩

theorem test_public_sends (identifier : String) (remote_addr : Address)
    (packets : List Packet) :
    (test_public identifier remote_addr packets).2 =
      List.replicate 3 (remote_addr, public_message identifier) := by
  cases hfm : firstMatch (public_message identifier) packets with
  | none =>
    simp only [test_public, hfm]
    rfl
  | some q =>
    simp only [test_public, hfm]
    rfl

theorem stun_rounds_count_le (message : String) (env : Nat → List Packet) :
    ∀ fuel i, (test_stun_rounds message env i fuel).2 ≤ fuel := by
  intro fuel
  induction fuel with
  | zero =>
    intro i
    exact le_refl 0
  | succ fuel ih =>
    intro i
    cases hres : await_packet_resolution message (env i) with
    | some pr =>
      obtain ⟨received, addr⟩ := pr
      cases hr : received == message with
      | true =>
        simp [test_stun_rounds, hres, hr]
      | false =>
        have := ih (i + 1)
        simp [test_stun_rounds, hres, hr]
        omega
    | none =>
      have := ih (i + 1)
      simp [test_stun_rounds, hres]
      omega

/-- Claim C9: the run is bounded — the PUBLIC phase's send trace is
exactly 3 probes to the peer's address followed by its single wait, and
the STUN phase runs at most 3 sequential rounds; there is no further
retry loop. -/
theorem C9_bounded_attempts (identifier : String) (remote_addr : Address)
    (packets : List Packet) (env : Nat → List Packet) :
    (test_public identifier remote_addr packets).2 =
      List.replicate 3 (remote_addr, public_message identifier) ∧
    (test_stun_rounds (hello_message identifier) env 0 3).2 ≤ 3 :=
  ⟨test_public_sends identifier remote_addr packets,
   stun_rounds_count_le (hello_message identifier) env 3 0⟩
